import Mathlib

/-!
Verification of the windowed-rendering and scroll-anchoring engine of the
game-release timeline page (source: src/src/App.tsx).

Modelling conventions:
* Pixel quantities (heights, offsets, scroll positions) are rationals (ℚ):
  the source manipulates them with +, -, *, /, min, max and comparisons only.
* A date key "YYYY-MM-DD" is modelled by its chronological day value as a
  natural number: the source deduplicates by string equality of well-formed
  ISO date keys and orders by the timestamp of the parsed date, and on such
  keys the string -> timestamp map is injective and monotone.
* The height cache (a JS Map from item index to measured pixel height) is
  modelled as a function Nat -> Option ℚ.
-/

/-- Constants from App.tsx. -/
def ESTIMATED_ITEM_HEIGHT : ℚ := 260

def ITEM_GAP : ℚ := 32

def OVERSCAN_PX : ℚ := 1200

def SCROLL_THRESHOLD : ℚ := 120

def SCROLL_SNAP_ATTEMPTS : Nat := 3

/-- One game entry of a release group (type Game in App.tsx). -/
structure Game where
  title : String
  genre : List String
  style : String
  studio : String
  platforms : List String
deriving DecidableEq, Repr

/-- One timeline item (type ReleaseGroup in App.tsx); `date` is the
chronological day value of the ISO date key. -/
structure ReleaseGroup where
  date : Nat
  displayDate : String
  games : List Game
deriving DecidableEq, Repr

/-- Stand-in for the ISO string of a modelled date key (used only for the
`entry.displayDate || entry.date` fallback in mergeTimeline). -/
def dateKeyString (d : Nat) : String := toString d

/-- Model of `grouped.set(g.date, g)` on the insertion-ordered JS Map:
replace the entry holding that key in place, else append. -/
def setAssoc (l : List ReleaseGroup) (g : ReleaseGroup) : List ReleaseGroup :=
  match l with
  | [] => [g]
  | h :: t => if h.date = g.date then g :: t else h :: setAssoc t g

/-- Model of `grouped.get(d)` on the insertion-ordered JS Map. -/
def getAssoc (l : List ReleaseGroup) (d : Nat) : Option ReleaseGroup :=
  l.find? (fun g => g.date = d)

/-- The body of the `entries.forEach` loop of mergeTimeline: fetch or create
the group for the entry's key, append the entry's games to it, store it. -/
def insertNewEntry (acc : List ReleaseGroup) (e : ReleaseGroup) : List ReleaseGroup :=
  let current :=
    match getAssoc acc e.date with
    | some c => c
    | none =>
      { date := e.date
        displayDate := if e.displayDate = "" then dateKeyString e.date else e.displayDate
        games := [] }
  setAssoc acc { current with games := current.games ++ e.games }

/-- Stable insertion step for the final `sort` of mergeTimeline (the sort key
is the parsed date; the grouped list is key-distinct, so any comparison sort
agrees with the JS sort). -/
def insertByDate (g : ReleaseGroup) : List ReleaseGroup → List ReleaseGroup
  | [] => [g]
  | h :: t => if g.date < h.date then g :: h :: t else h :: insertByDate g t

/-- Sort of the grouped values by date (`Array.from(grouped.values()).sort`). -/
def sortByDate (l : List ReleaseGroup) : List ReleaseGroup :=
  l.foldr insertByDate []

/-- mergeTimeline from App.tsx: copy `prev` into the keyed map, fold the
fetched `entries` in (merging games of duplicate keys), then sort by date. -/
def mergeTimeline (prev entries : List ReleaseGroup) : List ReleaseGroup :=
  sortByDate (entries.foldl insertNewEntry (prev.foldl setAssoc []))

/-- getItemHeight from App.tsx: measured height or the estimate constant. -/
def getItemHeight (hts : Nat → Option ℚ) (i : Nat) : ℚ :=
  (hts i).getD ESTIMATED_ITEM_HEIGHT

/-- The offsets prefix-sum loop from App.tsx: `result[0] = 0` and
`result[i+1] = result[i] + getItemHeight(i) + gap` where the gap after the
last item is 0. -/
def offsetAt (count : Nat) (hts : Nat → Option ℚ) : Nat → ℚ
  | 0 => 0
  | i + 1 => offsetAt count hts i + getItemHeight hts i + (if i = count - 1 then 0 else ITEM_GAP)

/-- The offsets array of App.tsx (length count + 1). -/
def offsetsList (count : Nat) (hts : Nat → Option ℚ) : List ℚ :=
  (List.range (count + 1)).map (offsetAt count hts)

/-- totalHeight from App.tsx: last entry of the offsets array. -/
def totalHeight (count : Nat) (hts : Nat → Option ℚ) : ℚ :=
  offsetAt count hts count

/-- The binary-search loop of findIndexForOffset. -/
def searchLoop (offs : List ℚ) (x : ℚ) (low high : Nat) : Nat :=
  if _h : low < high then
    let mid := (low + high) / 2
    if offs.getD mid 0 ≤ x then searchLoop offs x (mid + 1) high
    else searchLoop offs x low mid
  else low
termination_by high - low
decreasing_by
  all_goals simp_wf
  all_goals omega

/-- findIndexForOffset from App.tsx: binary search over the offsets array,
then `Math.max(0, low - 1)` (truncated Nat subtraction). -/
def findIndexForOffset (offs : List ℚ) (x : ℚ) : Nat :=
  searchLoop offs x 0 (offs.length - 1) - 1

/-- visibleRange from App.tsx; the second component is -1 for the empty
timeline, hence an Int. -/
def visibleRange (count : Nat) (hts : Nat → Option ℚ) (scrollTop viewportHeight : ℚ) :
    Nat × Int :=
  if count = 0 then (0, -1)
  else
    let offs := offsetsList count hts
    let startOffset := max 0 (scrollTop - OVERSCAN_PX)
    let endOffset := scrollTop + viewportHeight + OVERSCAN_PX
    (findIndexForOffset offs startOffset,
      (min (count - 1) (findIndexForOffset offs endOffset) : Nat))

/-- getScrollTarget from App.tsx: the clamped centered scroll offset for an
item index (`viewportHeight` models `scrollEl.clientHeight`). -/
def getScrollTarget (count : Nat) (hts : Nat → Option ℚ) (viewportHeight : ℚ)
    (index : Nat) : ℚ :=
  let targetTop := (offsetsList count hts).getD index 0
  let targetHeight := getItemHeight hts index
  let offset := targetTop - viewportHeight / 2 + targetHeight / 2
  let maxScrollTop := max 0 (totalHeight count hts - viewportHeight)
  min (max offset 0) maxScrollTop

/-- estimateAddedHeight from App.tsx. -/
def estimateAddedHeight (count : Int) : ℚ :=
  if count ≤ 0 then 0 else (count : ℚ) * (ESTIMATED_ITEM_HEIGHT + ITEM_GAP)

/-- The height-cache remap of loadAdjacentYear's prepend branch: every stored
entry moves from index i to index i + n; the rebuilt map holds nothing below
index n. -/
def remapAfterPrepend (hts : Nat → Option ℚ) (n : Nat) : Nat → Option ℚ :=
  fun j => if j < n then none else hts (j - n)

/-- Height cache with no measurements recorded. -/
def noHeights : Nat → Option ℚ := fun _ => none

/-- The last observed scroll direction (scrollDirectionRef). -/
inductive ScrollDir where
  | up
  | down
deriving DecidableEq, Repr

/-- Load direction of loadAdjacentYear. -/
inductive LoadDir where
  | older
  | newer
deriving DecidableEq, Repr

/-- The pagination-relevant component state of App.tsx. -/
structure AppState where
  timeline : List ReleaseGroup
  error : Option String
  availableYears : List Int
  loadedYears : List Int
  loadingPrev : Bool
  loadingNext : Bool
  canAutoLoad : Bool
  isTransitioning : Bool
  heights : Nat → Option ℚ
  pendingScrollShift : ℚ
  measureVersion : Nat

/-- Math.min over a nonempty spread (`Math.min(...loadedYears)`). -/
def minList : List Int → Option Int
  | [] => none
  | x :: xs => some (xs.foldl min x)

/-- Math.max over a nonempty spread (`Math.max(...loadedYears)`). -/
def maxList : List Int → Option Int
  | [] => none
  | x :: xs => some (xs.foldl max x)

/-- prevYear from App.tsx: scan availableYears from the end for the first
year below the minimum loaded year. -/
def prevYearOf (s : AppState) : Option Int :=
  match minList s.loadedYears with
  | none => none
  | some m => s.availableYears.reverse.find? (fun y => y < m)

/-- nextYear from App.tsx: scan availableYears from the start for the first
year above the maximum loaded year. -/
def nextYearOf (s : AppState) : Option Int :=
  match maxList s.loadedYears with
  | none => none
  | some m => s.availableYears.find? (fun y => m < y)

/-- Clearing or setting a per-direction loading flag. -/
def setLoadingFlag (s : AppState) (dir : LoadDir) (b : Bool) : AppState :=
  match dir with
  | .older => { s with loadingPrev := b }
  | .newer => { s with loadingNext := b }

/-- The synchronous prefix of loadAdjacentYear, executed before the fetch
suspends: raise the own-direction loading flag (and the transition overlay
for an older-page load). -/
def loadStart (s : AppState) (dir : LoadDir) : AppState :=
  match dir with
  | .older => { s with loadingPrev := true, isTransitioning := true }
  | .newer => { s with loadingNext := true }

/-- The catch/finally path of loadAdjacentYear: record the error message,
drop the transition overlay, clear the own-direction loading flag. -/
def finishFail (s : AppState) (dir : LoadDir) (msg : String) : AppState :=
  setLoadingFlag { s with error := some msg, isTransitioning := false } dir false

/-- The success path of loadAdjacentYear after the fetch resolves: remap the
height cache and accumulate the estimated scroll shift on a non-empty
prepend, bump the measure epoch, merge the page, record the loaded year,
clear the error, clear the own-direction loading flag. -/
def finishSuccess (s : AppState) (year : Int) (dir : LoadDir)
    (entries : List ReleaseGroup) : AppState :=
  let s1 :=
    if dir = LoadDir.older ∧ entries.length ≠ 0 then
      { s with heights := remapAfterPrepend s.heights entries.length
               pendingScrollShift :=
                 s.pendingScrollShift + estimateAddedHeight (entries.length : Int) }
    else s
  let s2 :=
    { s1 with measureVersion := s1.measureVersion + 1
              timeline := mergeTimeline s1.timeline entries
              loadedYears :=
                if year ∈ s1.loadedYears then s1.loadedYears else s1.loadedYears ++ [year]
              error := none }
  setLoadingFlag s2 dir false

/-- loadAdjacentYear collapsed over a failing fetch (early return when the
year is already loaded). -/
def loadAdjacentYearFail (s : AppState) (year : Int) (dir : LoadDir) (msg : String) :
    AppState :=
  if year ∈ s.loadedYears then s else finishFail (loadStart s dir) dir msg

/-- loadAdjacentYear collapsed over a successful fetch. -/
def loadAdjacentYearSuccess (s : AppState) (year : Int) (dir : LoadDir)
    (entries : List ReleaseGroup) : AppState :=
  if year ∈ s.loadedYears then s else finishSuccess (loadStart s dir) year dir entries

/-- The scroll observations the edge-load effects read. -/
structure ScrollInput where
  scrollTop : ℚ
  viewportHeight : ℚ
  dir : Option ScrollDir
deriving DecidableEq, Repr

/-- Guard of the older-page edge-load effect of App.tsx. -/
def prevTriggerB (s : AppState) (inp : ScrollInput) : Bool :=
  !s.timeline.isEmpty && (prevYearOf s).isSome && !s.loadingPrev && s.canAutoLoad &&
    decide (inp.scrollTop ≤ SCROLL_THRESHOLD) && decide (inp.dir = some ScrollDir.up)

/-- Guard of the newer-page edge-load effect of App.tsx. -/
def nextTriggerB (s : AppState) (inp : ScrollInput) : Bool :=
  !s.timeline.isEmpty && (nextYearOf s).isSome && !s.loadingNext && s.canAutoLoad &&
    decide (totalHeight s.timeline.length s.heights - SCROLL_THRESHOLD ≤
      inp.scrollTop + inp.viewportHeight) &&
    decide (inp.dir = some ScrollDir.down)

/-- The event-loop state: component state, last scroll observation, and the
number of fetches currently in flight per direction. -/
structure Sys where
  app : AppState
  scroll : ScrollInput
  inFlightPrev : Nat
  inFlightNext : Nat

/-- Begin an older-page fetch when the effect guard fired: loadAdjacentYear
returns at once if the year is already loaded, otherwise it raises the
loading flag synchronously and the fetch goes in flight. -/
def startPrev (sys : Sys) : Sys :=
  match prevYearOf sys.app with
  | none => sys
  | some y =>
    if y ∈ sys.app.loadedYears then sys
    else { sys with app := loadStart sys.app .older, inFlightPrev := sys.inFlightPrev + 1 }

/-- Begin a newer-page fetch when the effect guard fired. -/
def startNext (sys : Sys) : Sys :=
  match nextYearOf sys.app with
  | none => sys
  | some y =>
    if y ∈ sys.app.loadedYears then sys
    else { sys with app := loadStart sys.app .newer, inFlightNext := sys.inFlightNext + 1 }

/-- One run of the two edge-load effects (they re-run on every committed
state change). -/
def runEdgeEffects (sys : Sys) : Sys :=
  let sys1 := if prevTriggerB sys.app sys.scroll then startPrev sys else sys
  if nextTriggerB sys1.app sys1.scroll then startNext sys1 else sys1

/-- Events of the single-threaded event loop: a scroll observation, the
first user interaction (enables auto-loading), or a fetch settling. A
settle event is only meaningful while a fetch of that direction is in
flight. -/
inductive Ev where
  | scroll (inp : ScrollInput)
  | interact
  | settlePrev (year : Int) (res : Except String (List ReleaseGroup))
  | settleNext (year : Int) (res : Except String (List ReleaseGroup))

/-- One step of the event loop; after every state change the edge-load
effects run again. -/
def stepEv (sys : Sys) (e : Ev) : Sys :=
  match e with
  | .scroll inp => runEdgeEffects { sys with scroll := inp }
  | .interact => runEdgeEffects { sys with app := { sys.app with canAutoLoad := true } }
  | .settlePrev year res =>
    if sys.inFlightPrev = 0 then sys
    else
      let app1 :=
        match res with
        | .ok entries => finishSuccess sys.app year .older entries
        | .error msg => finishFail sys.app .older msg
      runEdgeEffects { sys with app := app1, inFlightPrev := sys.inFlightPrev - 1 }
  | .settleNext year res =>
    if sys.inFlightNext = 0 then sys
    else
      let app1 :=
        match res with
        | .ok entries => finishSuccess sys.app year .newer entries
        | .error msg => finishFail sys.app .newer msg
      runEdgeEffects { sys with app := app1, inFlightNext := sys.inFlightNext - 1 }

/-- A pending "jump to item" request (pendingSnapRef). -/
structure PendingSnap where
  index : Nat
  remaining : Nat
  lastMeasureVersion : Nat
deriving DecidableEq, Repr

/-- The observations one run of the pending-snap effect reads. -/
structure SnapInputs where
  measureVersion : Nat
  scrollTop : ℚ
  count : Nat
  hts : Nat → Option ℚ
  viewportHeight : ℚ

/-- One run of the pending-snap effect of App.tsx: discard on an empty
timeline, on convergence (recomputed target within 2px of the current
scroll offset) or on an exhausted budget; do nothing when the measure epoch
has already been consumed; otherwise consume the epoch, decrement the
budget and snap. The second component is the snap target if a snap was
forced. -/
def snapStep (pending : Option PendingSnap) (inp : SnapInputs) :
    Option PendingSnap × Option ℚ :=
  match pending with
  | none => (none, none)
  | some p =>
    if inp.count = 0 then (none, none)
    else
      let target := getScrollTarget inp.count inp.hts inp.viewportHeight p.index
      if |inp.scrollTop - target| ≤ 2 then (none, none)
      else if p.remaining ≤ 0 then (none, none)
      else if inp.measureVersion = p.lastMeasureVersion then (some p, none)
      else
        (some { p with remaining := p.remaining - 1, lastMeasureVersion := inp.measureVersion },
          some target)

/-- Run the pending-snap effect over a sequence of observations, counting
the forced snaps. -/
def snapTrace (pending : Option PendingSnap) : List SnapInputs → Option PendingSnap × Nat
  | [] => (pending, 0)
  | inp :: rest =>
    let st := snapStep pending inp
    let tr := snapTrace st.1 rest
    (tr.1, (if st.2.isSome then 1 else 0) + tr.2)

/-- The group record mergeTimeline builds for an entry whose key is new:
same date and games, with the `entry.displayDate || entry.date` fallback
applied. -/
def normEntry (e : ReleaseGroup) : ReleaseGroup :=
  { date := e.date
    displayDate := if e.displayDate = "" then dateKeyString e.date else e.displayDate
    games := e.games }

/-- Concrete fixtures for witnesses and counterexamples. -/
def gameA : Game :=
  { title := "Alpha", genre := [], style := "", studio := "", platforms := [] }

def gameB : Game :=
  { title := "Beta", genre := [], style := "", studio := "", platforms := [] }

def rg20241230 : ReleaseGroup := { date := 20241230, displayDate := "2024-12-30", games := [gameA] }

def rg20250102 : ReleaseGroup := { date := 20250102, displayDate := "2025-01-02", games := [] }

def rg20250610 : ReleaseGroup := { date := 20250610, displayDate := "2025-06-10", games := [] }

def rg20230310 : ReleaseGroup := { date := 20230310, displayDate := "2023-03-10", games := [] }

/-- Height cache of the C3 scenario: a height of 300px recorded for the
item at index 0 (the 2024-12-30 item). -/
def heightsScenario : Nat → Option ℚ := fun i => if i = 0 then some 300 else none

/-- Fetches in flight never exceed the per-direction loading flag: the
count equals 1 exactly while the flag is raised. -/
def sysInvariant (sys : Sys) : Prop :=
  sys.inFlightPrev = (if sys.app.loadingPrev then 1 else 0) ∧
  sys.inFlightNext = (if sys.app.loadingNext then 1 else 0)

/-- Concrete component state for witnesses and counterexamples: the 2024
page is loaded, 2023 is available but not loaded, auto-loading is enabled,
nothing is in flight. -/
def appW : AppState :=
  { timeline := [rg20241230]
    error := none
    availableYears := [2023, 2024]
    loadedYears := [2024]
    loadingPrev := false
    loadingNext := false
    canAutoLoad := true
    isTransitioning := false
    heights := noHeights
    pendingScrollShift := 0
    measureVersion := 0 }

/-- A scroll observation at the top edge while scrolling up. -/
def scrollW : ScrollInput := { scrollTop := 0, viewportHeight := 600, dir := some ScrollDir.up }

/-- The event-loop state before the qualifying scroll arrives. -/
def sysW : Sys :=
  { app := appW, scroll := { scrollTop := 300, viewportHeight := 600, dir := none }
    inFlightPrev := 0, inFlightNext := 0 }

/-! ### Lemmas about the keyed-map model of mergeTimeline -/

lemma mem_setAssoc_self (l : List ReleaseGroup) (g : ReleaseGroup) : g ∈ setAssoc l g := by
  induction l with
  | nil => simp [setAssoc]
  | cons a t ih =>
    unfold setAssoc
    by_cases hd : a.date = g.date
    · simp [hd]
    · simp [hd, ih]

lemma setAssoc_of_not_mem (l : List ReleaseGroup) (g : ReleaseGroup)
    (h : g.date ∉ l.map (fun r => r.date)) : setAssoc l g = l ++ [g] := by
  induction l with
  | nil => rfl
  | cons a t ih =>
    simp only [List.map_cons, List.mem_cons, not_or] at h
    unfold setAssoc
    rw [if_neg (fun hc => h.1 hc.symm), ih h.2]
    rfl

lemma setAssoc_map_date_of_mem (l : List ReleaseGroup) (g : ReleaseGroup)
    (h : g.date ∈ l.map (fun r => r.date)) :
    (setAssoc l g).map (fun r => r.date) = l.map (fun r => r.date) := by
  induction l with
  | nil => simp at h
  | cons a t ih =>
    simp only [List.map_cons, List.mem_cons] at h
    unfold setAssoc
    by_cases hd : a.date = g.date
    · simp [hd]
    · have hm : g.date ∈ t.map (fun r => r.date) := by
        rcases h with h | h
        · exact absurd h.symm hd
        · exact h
      simp [hd, ih hm]

lemma setAssoc_nodup (l : List ReleaseGroup) (g : ReleaseGroup)
    (h : (l.map (fun r => r.date)).Nodup) :
    ((setAssoc l g).map (fun r => r.date)).Nodup := by
  by_cases hm : g.date ∈ l.map (fun r => r.date)
  · rw [setAssoc_map_date_of_mem l g hm]; exact h
  · rw [setAssoc_of_not_mem l g hm]
    simp only [List.map_append, List.map_cons, List.map_nil]
    rw [List.nodup_append]
    refine ⟨h, List.nodup_singleton _, ?_⟩
    intro d hd hdg
    simp only [List.mem_singleton] at hdg
    subst hdg
    exact hm hd

lemma foldl_setAssoc_nodup (l : List ReleaseGroup) :
    ∀ acc : List ReleaseGroup, (acc.map (fun r => r.date)).Nodup →
      ((l.foldl setAssoc acc).map (fun r => r.date)).Nodup := by
  induction l with
  | nil => intro acc h; simpa using h
  | cons a t ih => intro acc h; exact ih _ (setAssoc_nodup acc a h)

lemma insertNewEntry_nodup (acc : List ReleaseGroup) (e : ReleaseGroup)
    (h : (acc.map (fun r => r.date)).Nodup) :
    ((insertNewEntry acc e).map (fun r => r.date)).Nodup := by
  unfold insertNewEntry
  exact setAssoc_nodup _ _ h

lemma foldl_insertNewEntry_nodup (l : List ReleaseGroup) :
    ∀ acc : List ReleaseGroup, (acc.map (fun r => r.date)).Nodup →
      ((l.foldl insertNewEntry acc).map (fun r => r.date)).Nodup := by
  induction l with
  | nil => intro acc h; simpa using h
  | cons a t ih => intro acc h; exact ih _ (insertNewEntry_nodup acc a h)

lemma insertByDate_perm (g : ReleaseGroup) (l : List ReleaseGroup) :
    (insertByDate g l).Perm (g :: l) := by
  induction l with
  | nil => simp [insertByDate]
  | cons a t ih =>
    unfold insertByDate
    by_cases hd : g.date < a.date
    · simp [hd]
    · rw [if_neg hd]
      exact (ih.cons a).trans (List.Perm.swap g a t)

lemma sortByDate_perm (l : List ReleaseGroup) : (sortByDate l).Perm l := by
  induction l with
  | nil => simp [sortByDate]
  | cons a t ih =>
    show (insertByDate a (sortByDate t)).Perm (a :: t)
    exact (insertByDate_perm a (sortByDate t)).trans (ih.cons a)

lemma mergeTimeline_dates_nodup (prev entries : List ReleaseGroup) :
    ((mergeTimeline prev entries).map (fun r => r.date)).Nodup := by
  have h0 : (((prev.foldl setAssoc []).map (fun r => r.date))).Nodup :=
    foldl_setAssoc_nodup prev [] (by simp)
  have h1 := foldl_insertNewEntry_nodup entries _ h0
  have hperm := (sortByDate_perm (entries.foldl insertNewEntry (prev.foldl setAssoc []))).map
    (fun r => r.date)
  unfold mergeTimeline
  exact hperm.nodup_iff.mpr h1

lemma getAssoc_eq_none (l : List ReleaseGroup) (d : Nat)
    (h : d ∉ l.map (fun r => r.date)) : getAssoc l d = none := by
  unfold getAssoc
  rw [List.find?_eq_none]
  intro g hg
  simp only [decide_eq_true_eq]
  intro hd
  exact h (hd ▸ List.mem_map_of_mem (fun r => r.date) hg)

lemma foldl_setAssoc_eq (l : List ReleaseGroup) :
    ∀ acc : List ReleaseGroup, (l.map (fun r => r.date)).Nodup →
      (∀ d ∈ l.map (fun r => r.date), d ∉ acc.map (fun r => r.date)) →
      l.foldl setAssoc acc = acc ++ l := by
  induction l with
  | nil => intro acc _ _; simp
  | cons a t ih =>
    intro acc hnd hdisj
    have hsimp : (∀ x ∈ t, ¬ x.date = a.date) ∧ (t.map (fun r => r.date)).Nodup := by
      simpa using hnd
    have hnd1 := hsimp.2
    have hda : a.date ∉ t.map (fun r => r.date) := by
      intro hm
      rcases List.mem_map.mp hm with ⟨x, hx, he⟩
      exact hsimp.1 x hx he
    have ha : a.date ∉ acc.map (fun r => r.date) := hdisj a.date (by simp)
    rw [List.foldl_cons, setAssoc_of_not_mem acc a ha, ih (acc ++ [a]) hnd1 ?_]
    · simp
    · intro d hd
      simp only [List.map_append, List.map_cons, List.map_nil, List.mem_append,
        List.mem_singleton, not_or]
      refine ⟨hdisj d (by simp [hd]), ?_⟩
      intro he
      exact hda (he ▸ hd)

lemma foldl_setAssoc_self (prev : List ReleaseGroup)
    (h : (prev.map (fun r => r.date)).Nodup) : prev.foldl setAssoc [] = prev := by
  simpa using foldl_setAssoc_eq prev [] h (by simp)

lemma insertNewEntry_of_not_mem (acc : List ReleaseGroup) (e : ReleaseGroup)
    (h : e.date ∉ acc.map (fun r => r.date)) :
    insertNewEntry acc e = acc ++ [normEntry e] := by
  unfold insertNewEntry
  rw [getAssoc_eq_none acc e.date h]
  have : ({ date := e.date,
            displayDate := if e.displayDate = "" then dateKeyString e.date else e.displayDate,
            games := [] } : ReleaseGroup).games ++ e.games = e.games := by simp
  rw [setAssoc_of_not_mem _ _ (by simpa using h)]
  simp [normEntry]

lemma foldl_insertNewEntry_eq (l : List ReleaseGroup) :
    ∀ acc : List ReleaseGroup, (l.map (fun r => r.date)).Nodup →
      (∀ d ∈ l.map (fun r => r.date), d ∉ acc.map (fun r => r.date)) →
      l.foldl insertNewEntry acc = acc ++ l.map normEntry := by
  induction l with
  | nil => intro acc _ _; simp
  | cons a t ih =>
    intro acc hnd hdisj
    have hsimp : (∀ x ∈ t, ¬ x.date = a.date) ∧ (t.map (fun r => r.date)).Nodup := by
      simpa using hnd
    have hnd1 := hsimp.2
    have hda : a.date ∉ t.map (fun r => r.date) := by
      intro hm
      rcases List.mem_map.mp hm with ⟨x, hx, he⟩
      exact hsimp.1 x hx he
    have ha : a.date ∉ acc.map (fun r => r.date) := hdisj a.date (by simp)
    rw [List.foldl_cons, insertNewEntry_of_not_mem acc a ha, ih (acc ++ [normEntry a]) hnd1 ?_]
    · simp
    · intro d hd
      simp only [List.map_append, List.map_cons, List.map_nil, List.mem_append,
        List.mem_singleton, not_or, normEntry]
      refine ⟨hdisj d (by simp [hd]), ?_⟩
      intro he
      exact hda (he ▸ hd)

/-! ### Lemmas about the sort of mergeTimeline -/

lemma insertByDate_front (g : ReleaseGroup) (l : List ReleaseGroup)
    (h : ∀ x ∈ l, g.date < x.date) : insertByDate g l = g :: l := by
  cases l with
  | nil => rfl
  | cons a t =>
    unfold insertByDate
    rw [if_pos (h a (by simp))]

lemma insertByDate_append (g : ReleaseGroup) (l1 l2 : List ReleaseGroup)
    (h : ∀ x ∈ l1, ¬ g.date < x.date) :
    insertByDate g (l1 ++ l2) = l1 ++ insertByDate g l2 := by
  induction l1 with
  | nil => rfl
  | cons a t ih =>
    have ha : ¬ g.date < a.date := h a (by simp)
    show insertByDate g (a :: (t ++ l2)) = a :: (t ++ insertByDate g l2)
    rw [show insertByDate g (a :: (t ++ l2)) =
        if g.date < a.date then g :: a :: (t ++ l2) else a :: insertByDate g (t ++ l2) from rfl]
    rw [if_neg ha, ih (fun x hx => h x (List.mem_cons_of_mem a hx))]

lemma sortByDate_sorted (l : List ReleaseGroup)
    (h : l.Pairwise (fun a b => a.date < b.date)) : sortByDate l = l := by
  induction l with
  | nil => rfl
  | cons a t ih =>
    have h1 : ∀ x ∈ t, a.date < x.date := (List.pairwise_cons.mp h).1
    have h2 := (List.pairwise_cons.mp h).2
    show insertByDate a (sortByDate t) = a :: t
    rw [ih h2, insertByDate_front a t h1]

lemma foldr_insertByDate_append (prev ents : List ReleaseGroup)
    (hp : prev.Pairwise (fun a b => a.date < b.date))
    (hlt : ∀ a ∈ ents, ∀ b ∈ prev, a.date < b.date) :
    prev.foldr insertByDate ents = ents ++ prev := by
  induction prev with
  | nil => simp
  | cons p ps ih =>
    have hp1 : ∀ x ∈ ps, p.date < x.date := (List.pairwise_cons.mp hp).1
    have hp2 := (List.pairwise_cons.mp hp).2
    have ih2 := ih hp2 (fun a ha b hb => hlt a ha b (List.mem_cons_of_mem p hb))
    show insertByDate p (ps.foldr insertByDate ents) = ents ++ p :: ps
    rw [ih2, insertByDate_append p ents ps
        (fun x hx => Nat.lt_asymm (hlt x hx p (by simp))),
      insertByDate_front p ps hp1]

lemma pairwise_dates_nodup (l : List ReleaseGroup)
    (h : l.Pairwise (fun a b => a.date < b.date)) :
    (l.map (fun r => r.date)).Nodup := by
  have hm : (l.map (fun r => r.date)).Pairwise (fun a b => a < b) :=
    List.pairwise_map.mpr h
  exact hm.imp (fun hab => Nat.ne_of_lt hab)

lemma mergeTimeline_prepend (prev entries : List ReleaseGroup)
    (hp : prev.Pairwise (fun a b => a.date < b.date))
    (he : entries.Pairwise (fun a b => a.date < b.date))
    (hlt : ∀ a ∈ entries, ∀ b ∈ prev, a.date < b.date) :
    mergeTimeline prev entries = entries.map normEntry ++ prev := by
  have hpnd := pairwise_dates_nodup prev hp
  have hend := pairwise_dates_nodup entries he
  have hdisj : ∀ d ∈ entries.map (fun r => r.date), d ∉ prev.map (fun r => r.date) := by
    intro d hd hdp
    rcases List.mem_map.mp hd with ⟨a, ha, hae⟩
    rcases List.mem_map.mp hdp with ⟨b, hb, hbe⟩
    have := hlt a ha b hb
    omega
  unfold mergeTimeline
  rw [foldl_setAssoc_self prev hpnd, foldl_insertNewEntry_eq entries prev hend hdisj]
  unfold sortByDate
  rw [List.foldr_append]
  have hentsSorted : (entries.map normEntry).Pairwise (fun a b => a.date < b.date) := by
    rw [List.pairwise_map]
    simpa [normEntry] using he
  have hinner : (entries.map normEntry).foldr insertByDate [] = entries.map normEntry :=
    sortByDate_sorted (entries.map normEntry) hentsSorted
  rw [hinner]
  exact foldr_insertByDate_append prev (entries.map normEntry) hp
    (fun a ha b hb => by
      rcases List.mem_map.mp ha with ⟨a0, ha0, hae⟩
      have : a0.date < b.date := hlt a0 ha0 b hb
      have hdae : a.date = a0.date := by rw [← hae]; rfl
      omega)

lemma mergeTimeline_existing_key (prev : List ReleaseGroup) (e old : ReleaseGroup)
    (hnd : (prev.map (fun r => r.date)).Nodup) (hget : getAssoc prev e.date = some old) :
    { old with games := old.games ++ e.games } ∈ mergeTimeline prev [e] := by
  unfold mergeTimeline
  rw [foldl_setAssoc_self prev hnd]
  have hins : List.foldl insertNewEntry prev [e] =
      setAssoc prev { old with games := old.games ++ e.games } := by
    show insertNewEntry prev e = _
    unfold insertNewEntry
    rw [hget]
  rw [hins]
  exact ((sortByDate_perm _).mem_iff).mpr (mem_setAssoc_self _ _)

lemma getElem_opt_append (l1 l2 : List ReleaseGroup) (i : Nat) :
    (l1 ++ l2)[l1.length + i]? = l2[i]? := by
  induction l1 with
  | nil => simp
  | cons a t ih =>
    have hidx : (a :: t).length + i = (t.length + i) + 1 := by
      simp [List.length_cons]
      omega
    rw [hidx]
    show (a :: (t ++ l2))[(t.length + i) + 1]? = l2[i]?
    rw [List.getElem?_cons_succ]
    exact ih

/-! ### Claim theorems -/

/-- Claim C1 counterexample: merging a page whose entry carries an already
present date key does NOT drop the incoming item — its games are appended to
the existing item, so that item is changed by the merge. -/
theorem mergeTimeline_drop_counterexample :
    mergeTimeline [{ date := 100, displayDate := "d", games := [gameA] }]
        [{ date := 100, displayDate := "d2", games := [gameB] }] =
      [{ date := 100, displayDate := "d", games := [gameA, gameB] }] ∧
    ({ date := 100, displayDate := "d", games := [gameA, gameB] } : ReleaseGroup) ≠
      { date := 100, displayDate := "d", games := [gameA] } := by
  constructor
  · rfl
  · decide

/-- Claim C1 (amended): merging a fetched page into the sequence
deduplicates by date key — the merged sequence holds at most one item per
key — but an incoming item whose key already exists is merged, not dropped:
its games are appended to the games of the existing item. -/
theorem mergeTimeline_dedup_merges (prev entries : List ReleaseGroup) (e old : ReleaseGroup)
    (hnd : (prev.map (fun r => r.date)).Nodup)
    (hget : getAssoc prev e.date = some old) :
    ((mergeTimeline prev entries).map (fun r => r.date)).Nodup ∧
    { old with games := old.games ++ e.games } ∈ mergeTimeline prev [e] :=
  ⟨mergeTimeline_dates_nodup prev entries,
    mergeTimeline_existing_key prev e old hnd hget⟩

/-- Claim C1 witness: the amended claim at a concrete sequence and page. -/
theorem mergeTimeline_dedup_merges_witness :
    ((mergeTimeline [{ date := 100, displayDate := "d", games := [gameA] }]
        [{ date := 100, displayDate := "x", games := [gameB] }]).map (fun r => r.date)).Nodup ∧
    ({ date := 100, displayDate := "d", games := [gameA, gameB] } : ReleaseGroup) ∈
      mergeTimeline [{ date := 100, displayDate := "d", games := [gameA] }]
        [{ date := 100, displayDate := "x", games := [gameB] }] :=
  mergeTimeline_dedup_merges
    [{ date := 100, displayDate := "d", games := [gameA] }]
    [{ date := 100, displayDate := "x", games := [gameB] }]
    { date := 100, displayDate := "x", games := [gameB] }
    { date := 100, displayDate := "d", games := [gameA] }
    (by decide) (by rfl)

/-- Claim C3 (confirmed): when an older page is prepended before the
existing items (all fetched keys new and strictly older), the merged
sequence is the normalized page followed by the old sequence, the item at
old index i sits at new index (page length + i), and the height-cache remap
attaches each stored height to the shifted index of the same item, so each
measurement stays with the same item key. -/
theorem prepend_remap_attachment (prev entries : List ReleaseGroup) (hts : Nat → Option ℚ)
    (hp : prev.Pairwise (fun a b => a.date < b.date))
    (he : entries.Pairwise (fun a b => a.date < b.date))
    (hlt : ∀ a ∈ entries, ∀ b ∈ prev, a.date < b.date) :
    mergeTimeline prev entries = entries.map normEntry ++ prev ∧
    ∀ i, i < prev.length →
      (mergeTimeline prev entries)[entries.length + i]? = prev[i]? ∧
      remapAfterPrepend hts entries.length (entries.length + i) = hts i := by
  have hm := mergeTimeline_prepend prev entries hp he hlt
  refine ⟨hm, fun i _hi => ⟨?_, ?_⟩⟩
  · rw [hm]
    have hlen : entries.length = (entries.map normEntry).length := by simp
    rw [hlen]
    exact getElem_opt_append (entries.map normEntry) prev i
  · unfold remapAfterPrepend
    have h1 : ¬ (entries.length + i < entries.length) := by omega
    have h2 : entries.length + i - entries.length = i := by omega
    rw [if_neg h1, h2]

/-- Claim C3 witness: the spec scenario — sequence 2024-12-30, 2025-01-02,
2025-06-10 with a 300px height recorded at index 0; loading a 2023 page
prepends one item, and the height stays attached to the 2024-12-30 item at
its shifted index. -/
theorem prepend_remap_attachment_witness :
    (mergeTimeline [rg20241230, rg20250102, rg20250610] [rg20230310])[1 + 0]? =
      [rg20241230, rg20250102, rg20250610][0]? ∧
    remapAfterPrepend heightsScenario 1 (1 + 0) = heightsScenario 0 :=
  (prepend_remap_attachment [rg20241230, rg20250102, rg20250610] [rg20230310]
    heightsScenario (by decide) (by decide) (by decide)).2 0 (by decide)

lemma offsetAt_zero (count : Nat) (hts : Nat → Option ℚ) : offsetAt count hts 0 = 0 := rfl

lemma offsetAt_succ (count : Nat) (hts : Nat → Option ℚ) (i : Nat) :
    offsetAt count hts (i + 1) =
      offsetAt count hts i + getItemHeight hts i + (if i = count - 1 then 0 else ITEM_GAP) :=
  rfl

/-- Claim C2 counterexample: the offsets loop adds no gap after the last
item, so for a single unmeasured item offsets[1] is 260, not 260 + 32 as
the claimed uniform recurrence demands at i = count - 1. -/
theorem offsets_gap_counterexample :
    offsetAt 1 noHeights 1 ≠
      offsetAt 1 noHeights 0 + getItemHeight noHeights 0 + ITEM_GAP := by
  have e1 : offsetAt 1 noHeights 1 = 260 := by
    have h := offsetAt_succ 1 noHeights 0
    simpa [offsetAt_zero, getItemHeight, noHeights, ESTIMATED_ITEM_HEIGHT] using h
  rw [e1, offsetAt_zero]
  simp only [getItemHeight, noHeights, Option.getD_none, ESTIMATED_ITEM_HEIGHT, ITEM_GAP]
  norm_num

/-- Claim C2 (amended): offsets[0] = 0 and offsets[i+1] = offsets[i] +
height(i) + gap for every i except the last item, which contributes its
height with no trailing gap: offsets[count] = offsets[count-1] +
height(count-1). -/
theorem offsets_recurrence (count : Nat) (hts : Nat → Option ℚ) :
    offsetAt count hts 0 = 0 ∧
    (∀ i, i + 1 < count →
      offsetAt count hts (i + 1) = offsetAt count hts i + getItemHeight hts i + ITEM_GAP) ∧
    (0 < count →
      offsetAt count hts count =
        offsetAt count hts (count - 1) + getItemHeight hts (count - 1)) := by
  refine ⟨rfl, ?_, ?_⟩
  · intro i hi
    have hne : ¬ (i = count - 1) := by omega
    show offsetAt count hts i + getItemHeight hts i + (if i = count - 1 then 0 else ITEM_GAP) = _
    rw [if_neg hne]
  · intro hc
    obtain ⟨m, rfl⟩ : ∃ m, count = m + 1 := ⟨count - 1, by omega⟩
    show offsetAt (m + 1) hts (m + 1) = offsetAt (m + 1) hts m + getItemHeight hts m
    simp [offsetAt]

/-- Claim C2 witness: the amended recurrence at a concrete table. -/
theorem offsets_recurrence_witness :
    offsetAt 2 noHeights 0 = 0 ∧
    offsetAt 2 noHeights 1 = offsetAt 2 noHeights 0 + getItemHeight noHeights 0 + ITEM_GAP ∧
    offsetAt 2 noHeights 2 = offsetAt 2 noHeights 1 + getItemHeight noHeights 1 :=
  ⟨(offsets_recurrence 2 noHeights).1,
    (offsets_recurrence 2 noHeights).2.1 0 (by norm_num),
    (offsets_recurrence 2 noHeights).2.2 (by norm_num)⟩

/-! ### Lemmas about the offset table and the binary search -/

lemma offsetsList_length (count : Nat) (hts : Nat → Option ℚ) :
    (offsetsList count hts).length = count + 1 := by
  simp [offsetsList]

lemma offsetsList_getD (count : Nat) (hts : Nat → Option ℚ) (k : Nat) (hk : k ≤ count) :
    (offsetsList count hts).getD k 0 = offsetAt count hts k := by
  unfold offsetsList
  rw [List.getD_eq_getElem?_getD, List.getElem?_map, List.getElem?_range (by omega)]
  rfl

lemma getItemHeight_nonneg (hts : Nat → Option ℚ)
    (hnn : ∀ i v, hts i = some v → 0 ≤ v) (i : Nat) : 0 ≤ getItemHeight hts i := by
  unfold getItemHeight
  cases h : hts i with
  | none =>
    show (0 : ℚ) ≤ ESTIMATED_ITEM_HEIGHT
    norm_num [ESTIMATED_ITEM_HEIGHT]
  | some v => simpa using hnn i v h

lemma offsetAt_le_succ (count : Nat) (hts : Nat → Option ℚ)
    (hnn : ∀ i v, hts i = some v → 0 ≤ v) (i : Nat) :
    offsetAt count hts i ≤ offsetAt count hts (i + 1) := by
  rw [offsetAt_succ]
  have h1 := getItemHeight_nonneg hts hnn i
  have h2 : (0 : ℚ) ≤ if i = count - 1 then 0 else ITEM_GAP := by
    split
    · exact le_refl 0
    · norm_num [ITEM_GAP]
  linarith

lemma offsetAt_mono (count : Nat) (hts : Nat → Option ℚ)
    (hnn : ∀ i v, hts i = some v → 0 ≤ v) :
    ∀ i j, i ≤ j → offsetAt count hts i ≤ offsetAt count hts j := by
  intro i j hij
  induction j, hij using Nat.le_induction with
  | base => exact le_refl _
  | succ j _hij ih => exact ih.trans (offsetAt_le_succ count hts hnn j)

lemma searchLoop_eq (offs : List ℚ) (x : ℚ) (b : Nat) :
    ∀ n low high, high - low ≤ n → low ≤ b → b ≤ high →
      (∀ k, low ≤ k → k < b → offs.getD k 0 ≤ x) →
      (∀ k, b ≤ k → k < high → ¬ offs.getD k 0 ≤ x) →
      searchLoop offs x low high = b := by
  intro n
  induction n with
  | zero =>
    intro low high hn h1 h2 _ _
    unfold searchLoop
    rw [dif_neg (by omega)]
    omega
  | succ n ih =>
    intro low high hn h1 h2 h3 h4
    by_cases hlh : low < high
    · unfold searchLoop
      rw [dif_pos hlh]
      show (if offs.getD ((low + high) / 2) 0 ≤ x then
          searchLoop offs x ((low + high) / 2 + 1) high
        else searchLoop offs x low ((low + high) / 2)) = b
      have hm1 : low ≤ (low + high) / 2 := by omega
      have hm2 : (low + high) / 2 < high := by omega
      by_cases hc : offs.getD ((low + high) / 2) 0 ≤ x
      · rw [if_pos hc]
        have hb : (low + high) / 2 + 1 ≤ b := by
          by_contra hb
          exact h4 ((low + high) / 2) (by omega) hm2 hc
        exact ih ((low + high) / 2 + 1) high (by omega) hb h2
          (fun k hk1 hk2 => h3 k (by omega) hk2) h4
      · rw [if_neg hc]
        have hb : b ≤ (low + high) / 2 := by
          by_contra hb
          exact hc (h3 ((low + high) / 2) hm1 (by omega))
        exact ih low ((low + high) / 2) (by omega) h1 hb h3
          (fun k hk1 hk2 => h4 k hk1 (by omega))
    · unfold searchLoop
      rw [dif_neg hlh]
      omega

lemma findIndexForOffset_zero (count : Nat) (hts : Nat → Option ℚ)
    (hnn : ∀ i v, hts i = some v → 0 ≤ v) :
    findIndexForOffset (offsetsList count hts) 0 = 0 := by
  unfold findIndexForOffset
  rw [offsetsList_length]
  have hlen : count + 1 - 1 = count := by omega
  rw [hlen]
  cases count with
  | zero =>
    have h := searchLoop_eq (offsetsList 0 hts) 0 0 0 0 0 (by omega) (by omega) (by omega)
      (fun k hk1 hk2 => by omega) (fun k hk1 hk2 => by omega)
    rw [h]
  | succ m =>
    have h := searchLoop_eq (offsetsList (m + 1) hts) 0 1 (m + 1) 0 (m + 1)
      (by omega) (by omega) (by omega)
      (fun k hk1 hk2 => by
        have hk0 : k = 0 := by omega
        subst hk0
        rw [offsetsList_getD (m + 1) hts 0 (by omega), offsetAt_zero])
      (fun k hk1 hk2 => by
        have hm1 : 1 ≤ m := by omega
        rw [offsetsList_getD (m + 1) hts k (by omega)]
        have hstep : offsetAt (m + 1) hts 1 = getItemHeight hts 0 + ITEM_GAP := by
          rw [offsetAt_succ, offsetAt_zero]
          rw [if_neg (by omega)]
          ring
        have hmono := offsetAt_mono (m + 1) hts hnn 1 k hk1
        have hh := getItemHeight_nonneg hts hnn 0
        have hgap : (0 : ℚ) < ITEM_GAP := by norm_num [ITEM_GAP]
        intro hle
        rw [hstep] at hmono
        linarith)
    rw [h]

lemma findIndexForOffset_total (count : Nat) (hts : Nat → Option ℚ)
    (hnn : ∀ i v, hts i = some v → 0 ≤ v) (hc : 0 < count) :
    findIndexForOffset (offsetsList count hts) (offsetAt count hts count) = count - 1 := by
  unfold findIndexForOffset
  rw [offsetsList_length]
  have hlen : count + 1 - 1 = count := by omega
  rw [hlen]
  have h := searchLoop_eq (offsetsList count hts) (offsetAt count hts count) count count
    0 count (by omega) (by omega) (by omega)
    (fun k _hk1 hk2 => by
      rw [offsetsList_getD count hts k (by omega)]
      exact offsetAt_mono count hts hnn k count (by omega))
    (fun k hk1 hk2 => by omega)
  rw [h]

/-- Claim C4 (confirmed): given that every stored measured height is
nonnegative (the measurement callback records only heights strictly greater
than 0), the offset table has length count + 1 and is non-decreasing,
indexForOffset(0) = 0, and for a nonempty sequence indexForOffset at the
total height returns count - 1. -/
theorem offset_index_invariants (count : Nat) (hts : Nat → Option ℚ)
    (hnn : ∀ i v, hts i = some v → 0 ≤ v) :
    (offsetsList count hts).length = count + 1 ∧
    (∀ i j, i ≤ j → offsetAt count hts i ≤ offsetAt count hts j) ∧
    findIndexForOffset (offsetsList count hts) 0 = 0 ∧
    (0 < count →
      findIndexForOffset (offsetsList count hts) (offsetAt count hts count) = count - 1) :=
  ⟨offsetsList_length count hts, offsetAt_mono count hts hnn,
    findIndexForOffset_zero count hts hnn, findIndexForOffset_total count hts hnn⟩

/-- Claim C4 witness: the invariants at a concrete table of two unmeasured
items. -/
theorem offset_index_invariants_witness :
    (offsetsList 2 noHeights).length = 3 ∧
    offsetAt 2 noHeights 1 ≤ offsetAt 2 noHeights 2 ∧
    findIndexForOffset (offsetsList 2 noHeights) 0 = 0 ∧
    findIndexForOffset (offsetsList 2 noHeights) (offsetAt 2 noHeights 2) = 1 := by
  have h := offset_index_invariants 2 noHeights
    (fun i v hv => by simp [noHeights] at hv)
  exact ⟨h.1, h.2.1 1 2 (by omega), h.2.2.1, h.2.2.2 (by omega)⟩

/-- Claim C5 (confirmed): the selected window is start = indexForOffset at
max(0, scrollTop - overscan) and end = min(count - 1, indexForOffset at
scrollTop + viewportHeight + overscan); the empty sequence yields
(0, -1) regardless of the scroll inputs. -/
theorem visible_range_formula (count : Nat) (hts : Nat → Option ℚ)
    (scrollTop viewportHeight : ℚ) :
    (count = 0 → visibleRange count hts scrollTop viewportHeight = (0, -1)) ∧
    (count ≠ 0 → visibleRange count hts scrollTop viewportHeight =
      (findIndexForOffset (offsetsList count hts) (max 0 (scrollTop - OVERSCAN_PX)),
        ((min (count - 1)
          (findIndexForOffset (offsetsList count hts)
            (scrollTop + viewportHeight + OVERSCAN_PX)) : Nat) : Int))) := by
  constructor
  · intro hc
    unfold visibleRange
    rw [if_pos hc]
  · intro hc
    unfold visibleRange
    rw [if_neg hc]

/-- Claim C5 witness: the formula at a one-item sequence and at the empty
sequence. -/
theorem visible_range_formula_witness :
    visibleRange 0 noHeights 50 600 = (0, -1) ∧
    visibleRange 1 noHeights 50 600 =
      (findIndexForOffset (offsetsList 1 noHeights) (max 0 (50 - OVERSCAN_PX)),
        ((min 0 (findIndexForOffset (offsetsList 1 noHeights) (50 + 600 + OVERSCAN_PX)) : Nat) :
          Int)) :=
  ⟨(visible_range_formula 0 noHeights 50 600).1 rfl,
    (visible_range_formula 1 noHeights 50 600).2 (by omega)⟩

/-- Claim C6 (confirmed): for a target index in a non-empty sequence whose
total content height is at least the viewport height (so that the claimed
clamp interval [0, total - viewportHeight] is an interval), the centered
jump target is itemOffset - viewportHeight/2 + itemHeight/2 clamped to
[0, total - viewportHeight]. -/
theorem centered_jump_formula (count : Nat) (hts : Nat → Option ℚ)
    (viewportHeight : ℚ) (index : Nat) (_hc : 0 < count)
    (hvh : viewportHeight ≤ totalHeight count hts) :
    getScrollTarget count hts viewportHeight index =
      min (max ((offsetsList count hts).getD index 0 - viewportHeight / 2 +
          getItemHeight hts index / 2) 0)
        (totalHeight count hts - viewportHeight) := by
  unfold getScrollTarget
  have hmax : max 0 (totalHeight count hts - viewportHeight) =
      totalHeight count hts - viewportHeight := by
    rw [max_eq_right]
    linarith
  rw [hmax]

/-- Claim C6 witness: the formula at a one-item sequence with a 100px
viewport (total 260 ≥ 100). -/
theorem centered_jump_formula_witness :
    getScrollTarget 1 noHeights 100 0 =
      min (max ((offsetsList 1 noHeights).getD 0 0 - 100 / 2 + getItemHeight noHeights 0 / 2) 0)
        (totalHeight 1 noHeights - 100) :=
  centered_jump_formula 1 noHeights 100 0 (by omega)
    (by
      show (100 : ℚ) ≤ offsetAt 1 noHeights 1
      have h := offsetAt_succ 1 noHeights 0
      rw [offsetAt_zero] at h
      rw [show offsetAt 1 noHeights (0 + 1) = offsetAt 1 noHeights 1 from rfl] at h
      rw [h]
      simp only [getItemHeight, noHeights, Option.getD_none, ESTIMATED_ITEM_HEIGHT]
      norm_num)

/-! ### Lemmas about the pending-snap protocol -/

lemma snapTrace_none (trace : List SnapInputs) : snapTrace none trace = (none, 0) := by
  induction trace with
  | nil => rfl
  | cons inp rest ih => simp [snapTrace, snapStep, ih]

lemma snapStep_some (p : PendingSnap) (inp : SnapInputs) :
    snapStep (some p) inp =
      if inp.count = 0 then (none, none)
      else if |inp.scrollTop - getScrollTarget inp.count inp.hts inp.viewportHeight p.index| ≤ 2
        then (none, none)
      else if p.remaining ≤ 0 then (none, none)
      else if inp.measureVersion = p.lastMeasureVersion then (some p, none)
      else
        (some { p with remaining := p.remaining - 1, lastMeasureVersion := inp.measureVersion },
          some (getScrollTarget inp.count inp.hts inp.viewportHeight p.index)) := rfl

lemma snapTrace_cons (pending : Option PendingSnap) (inp : SnapInputs)
    (rest : List SnapInputs) :
    snapTrace pending (inp :: rest) =
      ((snapTrace (snapStep pending inp).1 rest).1,
        (if (snapStep pending inp).2.isSome then 1 else 0) +
          (snapTrace (snapStep pending inp).1 rest).2) := rfl

lemma snapStep_cases (p : PendingSnap) (inp : SnapInputs) :
    snapStep (some p) inp = (none, none) ∨
    snapStep (some p) inp = (some p, none) ∨
    (snapStep (some p) inp =
      (some ⟨p.index, p.remaining - 1, inp.measureVersion⟩,
        some (getScrollTarget inp.count inp.hts inp.viewportHeight p.index)) ∧
      1 ≤ p.remaining) := by
  rw [snapStep_some]
  split_ifs with h0 h1 h2 h3
  · exact Or.inl rfl
  · exact Or.inl rfl
  · exact Or.inl rfl
  · exact Or.inr (Or.inl rfl)
  · exact Or.inr (Or.inr ⟨rfl, by omega⟩)

lemma snapTrace_le (trace : List SnapInputs) :
    ∀ p : PendingSnap, (snapTrace (some p) trace).2 ≤ p.remaining := by
  induction trace with
  | nil => intro p; exact Nat.zero_le _
  | cons inp rest ih =>
    intro p
    rw [snapTrace_cons]
    rcases snapStep_cases p inp with h | h | ⟨h, hr⟩
    · rw [h]
      simp [snapTrace_none]
    · rw [h]
      simpa using ih p
    · rw [h]
      have hih := ih ⟨p.index, p.remaining - 1, inp.measureVersion⟩
      simp only [Option.isSome_some, if_true]
      simp only at hih
      omega

/-- Claim C7 (confirmed): on each run of the pending-snap effect with a
non-empty timeline, a target within the 2px tolerance discards the request;
a forced snap happens only on a fresh measure epoch and consumes it while
decrementing the budget (so the request never snaps twice on the same
epoch); an exhausted budget never forces a snap; and over any trace of
epoch observations the number of forced snaps is bounded by the remaining
budget — in particular by SCROLL_SNAP_ATTEMPTS for a freshly created
request — after which the request is discarded without further forcing. -/
theorem snap_protocol (p : PendingSnap) (inp : SnapInputs) (trace : List SnapInputs)
    (hc : inp.count ≠ 0) :
    (|inp.scrollTop - getScrollTarget inp.count inp.hts inp.viewportHeight p.index| ≤ 2 →
      snapStep (some p) inp = (none, none)) ∧
    ((snapStep (some p) inp).2.isSome →
      inp.measureVersion ≠ p.lastMeasureVersion ∧
      (snapStep (some p) inp).1 =
        some ⟨p.index, p.remaining - 1, inp.measureVersion⟩) ∧
    (p.remaining = 0 → (snapStep (some p) inp).2 = none) ∧
    (snapTrace (some p) trace).2 ≤ p.remaining ∧
    (snapTrace (some ⟨p.index, SCROLL_SNAP_ATTEMPTS, p.lastMeasureVersion⟩) trace).2 ≤
      SCROLL_SNAP_ATTEMPTS := by
  refine ⟨?_, ?_, ?_, snapTrace_le trace p, snapTrace_le trace _⟩
  · intro h
    rw [snapStep_some, if_neg hc, if_pos h]
  · intro h
    rw [snapStep_some, if_neg hc] at h ⊢
    by_cases h1 :
      |inp.scrollTop - getScrollTarget inp.count inp.hts inp.viewportHeight p.index| ≤ 2
    · rw [if_pos h1] at h
      simp at h
    · rw [if_neg h1] at h ⊢
      by_cases h2 : p.remaining ≤ 0
      · rw [if_pos h2] at h
        simp at h
      · rw [if_neg h2] at h ⊢
        by_cases h3 : inp.measureVersion = p.lastMeasureVersion
        · rw [if_pos h3] at h
          simp at h
        · rw [if_neg h3]
          exact ⟨h3, rfl⟩
  · intro h0
    rw [snapStep_some, if_neg hc]
    by_cases h1 :
      |inp.scrollTop - getScrollTarget inp.count inp.hts inp.viewportHeight p.index| ≤ 2
    · rw [if_pos h1]
    · rw [if_neg h1, if_pos (by omega)]

/-- Claim C7 witness: the protocol at a concrete one-item state, a fresh
request holding the full budget, and the empty trace. -/
theorem snap_protocol_witness :
    (|(0 : ℚ) - getScrollTarget 1 noHeights 100 0| ≤ 2 →
      snapStep (some ⟨0, SCROLL_SNAP_ATTEMPTS, 0⟩) ⟨1, 0, 1, noHeights, 100⟩ = (none, none)) ∧
    ((snapStep (some ⟨0, SCROLL_SNAP_ATTEMPTS, 0⟩) ⟨1, 0, 1, noHeights, 100⟩).2.isSome →
      (1 : Nat) ≠ 0 ∧
      (snapStep (some ⟨0, SCROLL_SNAP_ATTEMPTS, 0⟩) ⟨1, 0, 1, noHeights, 100⟩).1 =
        some ⟨0, SCROLL_SNAP_ATTEMPTS - 1, 1⟩) ∧
    (SCROLL_SNAP_ATTEMPTS = 0 →
      (snapStep (some ⟨0, SCROLL_SNAP_ATTEMPTS, 0⟩) ⟨1, 0, 1, noHeights, 100⟩).2 = none) ∧
    (snapTrace (some ⟨0, SCROLL_SNAP_ATTEMPTS, 0⟩) []).2 ≤ SCROLL_SNAP_ATTEMPTS ∧
    (snapTrace (some ⟨0, SCROLL_SNAP_ATTEMPTS, 0⟩) []).2 ≤ SCROLL_SNAP_ATTEMPTS :=
  snap_protocol ⟨0, SCROLL_SNAP_ATTEMPTS, 0⟩ ⟨1, 0, 1, noHeights, 100⟩ [] (by decide)

/-! ### Lemmas about the pagination state machine -/

lemma prevTriggerB_loadingPrev (s : AppState) (inp : ScrollInput)
    (h : prevTriggerB s inp = true) : s.loadingPrev = false := by
  simp only [prevTriggerB, Bool.and_eq_true, Bool.not_eq_true'] at h
  exact h.1.1.1.2

lemma nextTriggerB_loadingNext (s : AppState) (inp : ScrollInput)
    (h : nextTriggerB s inp = true) : s.loadingNext = false := by
  simp only [nextTriggerB, Bool.and_eq_true, Bool.not_eq_true'] at h
  exact h.1.1.1.2

lemma startPrev_none (sys : Sys) (hc : prevYearOf sys.app = none) : startPrev sys = sys := by
  unfold startPrev
  rw [hc]

lemma startPrev_some_mem (sys : Sys) (y : Int) (hc : prevYearOf sys.app = some y)
    (hy : y ∈ sys.app.loadedYears) : startPrev sys = sys := by
  unfold startPrev
  rw [hc]
  show (if y ∈ sys.app.loadedYears then sys else _) = sys
  rw [if_pos hy]

lemma startPrev_some_new (sys : Sys) (y : Int) (hc : prevYearOf sys.app = some y)
    (hy : y ∉ sys.app.loadedYears) :
    startPrev sys = ⟨loadStart sys.app .older, sys.scroll, sys.inFlightPrev + 1,
      sys.inFlightNext⟩ := by
  unfold startPrev
  rw [hc]
  show (if y ∈ sys.app.loadedYears then sys else _) = _
  rw [if_neg hy]

lemma startNext_none (sys : Sys) (hc : nextYearOf sys.app = none) : startNext sys = sys := by
  unfold startNext
  rw [hc]

lemma startNext_some_mem (sys : Sys) (y : Int) (hc : nextYearOf sys.app = some y)
    (hy : y ∈ sys.app.loadedYears) : startNext sys = sys := by
  unfold startNext
  rw [hc]
  show (if y ∈ sys.app.loadedYears then sys else _) = sys
  rw [if_pos hy]

lemma startNext_some_new (sys : Sys) (y : Int) (hc : nextYearOf sys.app = some y)
    (hy : y ∉ sys.app.loadedYears) :
    startNext sys = ⟨loadStart sys.app .newer, sys.scroll, sys.inFlightPrev,
      sys.inFlightNext + 1⟩ := by
  unfold startNext
  rw [hc]
  show (if y ∈ sys.app.loadedYears then sys else _) = _
  rw [if_neg hy]

lemma startPrev_inv (sys : Sys) (h : sysInvariant sys)
    (hflag : sys.app.loadingPrev = false) : sysInvariant (startPrev sys) := by
  rcases hc : prevYearOf sys.app with _ | y
  · rw [startPrev_none sys hc]
    exact h
  · by_cases hy : y ∈ sys.app.loadedYears
    · rw [startPrev_some_mem sys y hc hy]
      exact h
    · rw [startPrev_some_new sys y hc hy]
      rcases h with ⟨h1, h2⟩
      rw [hflag] at h1
      simp only [if_neg Bool.false_ne_true] at h1
      exact ⟨by simp [loadStart, h1], by simpa [loadStart] using h2⟩

lemma startNext_inv (sys : Sys) (h : sysInvariant sys)
    (hflag : sys.app.loadingNext = false) : sysInvariant (startNext sys) := by
  rcases hc : nextYearOf sys.app with _ | y
  · rw [startNext_none sys hc]
    exact h
  · by_cases hy : y ∈ sys.app.loadedYears
    · rw [startNext_some_mem sys y hc hy]
      exact h
    · rw [startNext_some_new sys y hc hy]
      rcases h with ⟨h1, h2⟩
      rw [hflag] at h2
      simp only [if_neg Bool.false_ne_true] at h2
      exact ⟨by simpa [loadStart] using h1, by simp [loadStart, h2]⟩

lemma runEdgeEffects_inv (sys : Sys) (h : sysInvariant sys) :
    sysInvariant (runEdgeEffects sys) := by
  simp only [runEdgeEffects]
  by_cases hp : prevTriggerB sys.app sys.scroll
  · rw [if_pos hp]
    have h1 := startPrev_inv sys h (prevTriggerB_loadingPrev _ _ hp)
    by_cases hn : nextTriggerB (startPrev sys).app (startPrev sys).scroll
    · rw [if_pos hn]
      exact startNext_inv _ h1 (nextTriggerB_loadingNext _ _ hn)
    · rw [if_neg hn]
      exact h1
  · rw [if_neg hp]
    by_cases hn : nextTriggerB sys.app sys.scroll
    · rw [if_pos hn]
      exact startNext_inv _ h (nextTriggerB_loadingNext _ _ hn)
    · rw [if_neg hn]
      exact h

lemma finishFail_flags_older (s : AppState) (msg : String) :
    (finishFail s .older msg).loadingPrev = false ∧
    (finishFail s .older msg).loadingNext = s.loadingNext :=
  ⟨rfl, rfl⟩

lemma finishFail_flags_newer (s : AppState) (msg : String) :
    (finishFail s .newer msg).loadingNext = false ∧
    (finishFail s .newer msg).loadingPrev = s.loadingPrev :=
  ⟨rfl, rfl⟩

lemma finishSuccess_flags_older (s : AppState) (year : Int) (entries : List ReleaseGroup) :
    (finishSuccess s year .older entries).loadingPrev = false ∧
    (finishSuccess s year .older entries).loadingNext = s.loadingNext := by
  constructor
  · rfl
  · simp only [finishSuccess, setLoadingFlag]
    split <;> rfl

lemma finishSuccess_flags_newer (s : AppState) (year : Int) (entries : List ReleaseGroup) :
    (finishSuccess s year .newer entries).loadingNext = false ∧
    (finishSuccess s year .newer entries).loadingPrev = s.loadingPrev := by
  constructor
  · rfl
  · simp only [finishSuccess, setLoadingFlag]
    split <;> rfl

lemma stepEv_inv (sys : Sys) (e : Ev) (h : sysInvariant sys) :
    sysInvariant (stepEv sys e) := by
  cases e with
  | scroll inp => exact runEdgeEffects_inv _ h
  | interact => exact runEdgeEffects_inv _ h
  | settlePrev year res =>
    simp only [stepEv]
    by_cases h0 : sys.inFlightPrev = 0
    · rw [if_pos h0]
      exact h
    · rw [if_neg h0]
      have hflag : sys.app.loadingPrev = true := by
        rcases h with ⟨h1, _⟩
        by_contra hf
        simp only [Bool.not_eq_true] at hf
        rw [hf] at h1
        simp only [if_neg Bool.false_ne_true] at h1
        exact h0 h1
      apply runEdgeEffects_inv
      rcases h with ⟨h1, h2⟩
      rw [hflag, if_pos rfl] at h1
      cases res with
      | ok entries =>
        refine ⟨?_, ?_⟩
        · show sys.inFlightPrev - 1 =
            if (finishSuccess sys.app year .older entries).loadingPrev then 1 else 0
          rw [(finishSuccess_flags_older sys.app year entries).1]
          simp only [if_neg Bool.false_ne_true]
          omega
        · show sys.inFlightNext =
            if (finishSuccess sys.app year .older entries).loadingNext then 1 else 0
          rw [(finishSuccess_flags_older sys.app year entries).2]
          exact h2
      | error msg =>
        refine ⟨?_, ?_⟩
        · show sys.inFlightPrev - 1 =
            if (finishFail sys.app .older msg).loadingPrev then 1 else 0
          rw [(finishFail_flags_older sys.app msg).1]
          simp only [if_neg Bool.false_ne_true]
          omega
        · show sys.inFlightNext =
            if (finishFail sys.app .older msg).loadingNext then 1 else 0
          rw [(finishFail_flags_older sys.app msg).2]
          exact h2
  | settleNext year res =>
    simp only [stepEv]
    by_cases h0 : sys.inFlightNext = 0
    · rw [if_pos h0]
      exact h
    · rw [if_neg h0]
      have hflag : sys.app.loadingNext = true := by
        rcases h with ⟨_, h2⟩
        by_contra hf
        simp only [Bool.not_eq_true] at hf
        rw [hf] at h2
        simp only [if_neg Bool.false_ne_true] at h2
        exact h0 h2
      apply runEdgeEffects_inv
      rcases h with ⟨h1, h2⟩
      rw [hflag, if_pos rfl] at h2
      cases res with
      | ok entries =>
        refine ⟨?_, ?_⟩
        · show sys.inFlightPrev =
            if (finishSuccess sys.app year .newer entries).loadingPrev then 1 else 0
          rw [(finishSuccess_flags_newer sys.app year entries).2]
          exact h1
        · show sys.inFlightNext - 1 =
            if (finishSuccess sys.app year .newer entries).loadingNext then 1 else 0
          rw [(finishSuccess_flags_newer sys.app year entries).1]
          simp only [if_neg Bool.false_ne_true]
          omega
      | error msg =>
        refine ⟨?_, ?_⟩
        · show sys.inFlightPrev =
            if (finishFail sys.app .newer msg).loadingPrev then 1 else 0
          rw [(finishFail_flags_newer sys.app msg).2]
          exact h1
        · show sys.inFlightNext - 1 =
            if (finishFail sys.app .newer msg).loadingNext then 1 else 0
          rw [(finishFail_flags_newer sys.app msg).1]
          simp only [if_neg Bool.false_ne_true]
          omega

lemma foldl_stepEv_inv (evs : List Ev) :
    ∀ sys : Sys, sysInvariant sys → sysInvariant (evs.foldl stepEv sys) := by
  induction evs with
  | nil => intro sys h; exact h
  | cons e rest ih => intro sys h; exact ih _ (stepEv_inv sys e h)

/-- Claim C9 (confirmed): starting from a state with neither direction in
flight, every trace of scroll, interaction and fetch-settle events keeps at
most one fetch per direction in flight: the edge-load effect starts a fetch
only when the per-direction loading flag is down, and the flag is raised in
the same step, before the fetch is in flight. -/
theorem single_fetch_in_flight (app0 : AppState) (scroll0 : ScrollInput) (evs : List Ev)
    (h1 : app0.loadingPrev = false) (h2 : app0.loadingNext = false) :
    (evs.foldl stepEv ⟨app0, scroll0, 0, 0⟩).inFlightPrev ≤ 1 ∧
    (evs.foldl stepEv ⟨app0, scroll0, 0, 0⟩).inFlightNext ≤ 1 := by
  have h0 : sysInvariant ⟨app0, scroll0, 0, 0⟩ := by
    constructor
    · show (0 : Nat) = if app0.loadingPrev then 1 else 0
      rw [h1, if_neg Bool.false_ne_true]
    · show (0 : Nat) = if app0.loadingNext then 1 else 0
      rw [h2, if_neg Bool.false_ne_true]
  have hinv := foldl_stepEv_inv evs ⟨app0, scroll0, 0, 0⟩ h0
  rcases hinv with ⟨ha, hb⟩
  constructor
  · rw [ha]
    split <;> omega
  · rw [hb]
    split <;> omega

/-- Claim C9 witness: a qualifying top-edge scroll followed by a second
identical scroll while the fetch is in flight leaves exactly one older-page
fetch in flight. -/
theorem single_fetch_in_flight_witness :
    ([Ev.scroll scrollW, Ev.scroll scrollW].foldl stepEv
      ⟨appW, { scrollTop := 300, viewportHeight := 600, dir := none }, 0, 0⟩).inFlightPrev ≤ 1 ∧
    ([Ev.scroll scrollW, Ev.scroll scrollW].foldl stepEv
      ⟨appW, { scrollTop := 300, viewportHeight := 600, dir := none }, 0, 0⟩).inFlightNext ≤ 1 :=
  single_fetch_in_flight appW { scrollTop := 300, viewportHeight := 600, dir := none }
    [Ev.scroll scrollW, Ev.scroll scrollW] rfl rfl

/-- Claim C8 counterexample: the error slot is shared, not per-direction —
failing an older-page load and then a newer-page load leaves only the later
message, losing the older-direction record; and a failure does not require
a new edge-cross before the next fetch: after a qualifying scroll starts a
fetch and the fetch fails, the effects re-run on the unchanged scroll
observation and a new older-page fetch is immediately in flight again
(automatic retry). -/
theorem load_failure_counterexample :
    (loadAdjacentYearFail (loadAdjacentYearFail appW 2023 .older "older boom") 2026 .newer
        "newer boom").error = some "newer boom" ∧
    (some "newer boom" : Option String) ≠ some "older boom" ∧
    (stepEv sysW (.scroll scrollW)).inFlightPrev = 1 ∧
    (stepEv (stepEv sysW (.scroll scrollW)) (.settlePrev 2023 (.error "net"))).app.error =
      some "net" ∧
    (stepEv (stepEv sysW (.scroll scrollW)) (.settlePrev 2023 (.error "net"))).inFlightPrev =
      1 := by
  refine ⟨rfl, ?_, rfl, rfl, rfl⟩
  decide

/-- Claim C8 (amended): when a page fetch fails, an error message is
recorded in the single shared error slot, the Loading flag for the failed
direction clears, and the item sequence, loaded-page set, height cache and
pending scroll shift are unchanged; the failure leaves the older-page edge
trigger exactly as before, so while the qualifying scroll condition
persists the load is retried automatically — the trigger does not consult
the error. -/
theorem load_failure_state (s : AppState) (year : Int) (dir : LoadDir) (msg : String)
    (hy : year ∉ s.loadedYears) :
    (loadAdjacentYearFail s year dir msg).error = some msg ∧
    (loadAdjacentYearFail s year dir msg).timeline = s.timeline ∧
    (loadAdjacentYearFail s year dir msg).loadedYears = s.loadedYears ∧
    (loadAdjacentYearFail s year dir msg).heights = s.heights ∧
    (loadAdjacentYearFail s year dir msg).pendingScrollShift = s.pendingScrollShift ∧
    (dir = .older → (loadAdjacentYearFail s year dir msg).loadingPrev = false) ∧
    (dir = .newer → (loadAdjacentYearFail s year dir msg).loadingNext = false) ∧
    (∀ inp, s.loadingPrev = false → dir = .older →
      prevTriggerB (loadAdjacentYearFail s year dir msg) inp = prevTriggerB s inp) := by
  unfold loadAdjacentYearFail
  rw [if_neg hy]
  cases dir with
  | older =>
    refine ⟨rfl, rfl, rfl, rfl, rfl, fun _ => rfl, fun hcon => absurd hcon (by decide), ?_⟩
    intro inp hlp _
    show prevTriggerB (finishFail (loadStart s .older) .older msg) inp = prevTriggerB s inp
    unfold prevTriggerB
    rw [hlp]
    rfl
  | newer =>
    refine ⟨rfl, rfl, rfl, rfl, rfl, fun hcon => absurd hcon (by decide), fun _ => rfl, ?_⟩
    intro inp _ hcon
    exact absurd hcon (by decide)

/-- Claim C8 witness: the amended failure behaviour at the concrete state,
including the unchanged retry trigger at the same top-edge scroll. -/
theorem load_failure_state_witness :
    (loadAdjacentYearFail appW 2023 .older "boom").error = some "boom" ∧
    (loadAdjacentYearFail appW 2023 .older "boom").timeline = appW.timeline ∧
    (loadAdjacentYearFail appW 2023 .older "boom").loadedYears = appW.loadedYears ∧
    prevTriggerB (loadAdjacentYearFail appW 2023 .older "boom") scrollW =
      prevTriggerB appW scrollW := by
  have h := load_failure_state appW 2023 .older "boom" (by decide)
  exact ⟨h.1, h.2.1, h.2.2.1, h.2.2.2.2.2.2.2 scrollW rfl rfl⟩

/-- Claim C10 (confirmed): the immediate best-effort shift accumulated on a
prepend of n fetched items is n x (estimate + gap) for n > 0 and 0 for
n ≤ 0; the older-page success path adds exactly estimateAddedHeight of the
page length to the pending scroll shift before any new measurements. -/
theorem prepend_shift_estimate (n : Int) (s : AppState) (year : Int)
    (entries : List ReleaseGroup) (hy : year ∉ s.loadedYears) :
    (0 < n → estimateAddedHeight n = (n : ℚ) * (ESTIMATED_ITEM_HEIGHT + ITEM_GAP)) ∧
    (n ≤ 0 → estimateAddedHeight n = 0) ∧
    (loadAdjacentYearSuccess s year .older entries).pendingScrollShift =
      s.pendingScrollShift + estimateAddedHeight (entries.length : Int) := by
  refine ⟨?_, ?_, ?_⟩
  · intro hn
    unfold estimateAddedHeight
    rw [if_neg (by omega)]
  · intro hn
    unfold estimateAddedHeight
    rw [if_pos hn]
  · unfold loadAdjacentYearSuccess
    rw [if_neg hy]
    by_cases he : entries.length = 0
    · have h0 : estimateAddedHeight (entries.length : Int) = 0 := by
        unfold estimateAddedHeight
        rw [if_pos (by omega)]
      rw [h0, add_zero]
      show (finishSuccess (loadStart s .older) year .older entries).pendingScrollShift =
        s.pendingScrollShift
      unfold finishSuccess
      rw [if_neg (by simp [he])]
      rfl
    · show (finishSuccess (loadStart s .older) year .older entries).pendingScrollShift =
        s.pendingScrollShift + estimateAddedHeight (entries.length : Int)
      unfold finishSuccess
      rw [if_pos ⟨rfl, he⟩]
      rfl

/-- Claim C10 witness: a two-item estimate and the concrete one-item 2023
prepend. -/
theorem prepend_shift_estimate_witness :
    ((0 : Int) < 2 → estimateAddedHeight 2 = ((2 : Int) : ℚ) * (ESTIMATED_ITEM_HEIGHT + ITEM_GAP)) ∧
    ((2 : Int) ≤ 0 → estimateAddedHeight 2 = 0) ∧
    (loadAdjacentYearSuccess appW 2023 .older [rg20230310]).pendingScrollShift =
      appW.pendingScrollShift +
        estimateAddedHeight (([rg20230310] : List ReleaseGroup).length : Int) :=
  prepend_shift_estimate 2 appW 2023 [rg20230310] (by decide)
